import Mathlib

/-!
Verification development for the leaderboard broadcaster service
(`backend/src/services/leaderboard-broadcaster.service.ts`).

The service is embedded shallowly:
* snapshots (JS `Map<string, RankSnapshot>`) become association lists kept in
  insertion order, with first-match lookup (`snapLookup`) and in-place update
  (`mapSet`), mirroring JS `Map` iteration/update semantics;
* the async cycle `broadcastRankChanges` becomes a pure state-transition
  function over `BroadcasterState`, parameterised by an environment `Env`
  that supplies the results of every external call (repository queries,
  socket emissions, clock reads); throwing calls are `Except` results or
  boolean failure flags;
* observable behaviour is collected in a trace of `Effect`s (repository
  calls and socket emissions); emitted socket payloads are modelled as the
  JSON objects the code builds, i.e. ordered field-name/value lists;
* `Array.prototype.sort` (stable since ES2019) applied with comparator
  `Math.abs(b.rankChange) - Math.abs(a.rankChange)` is embedded as the
  stable insertion sort `sortByAbsDesc`, which is extensionally the unique
  stable sort for that key order.
-/

namespace LB

abbrev UserId := String

/-- `RankSnapshot` interface of the source. -/
structure RankSnapshot where
  userId : UserId
  globalRank : Int
  weeklyRank : Int
  allTimePnl : Int
  weeklyPnl : Int
  timestamp : Int
deriving DecidableEq

/-- A JS `Map<string, RankSnapshot>` in insertion order. -/
abbrev Snapshot := List (UserId × RankSnapshot)

/-- `Map.prototype.get`: first (unique) binding of the key. -/
def snapLookup : Snapshot → UserId → Option RankSnapshot
  | [], _ => none
  | (k, v) :: rest, u => if k = u then some v else snapLookup rest u

/-- `Map.prototype.set`: update in place (keeping the original insertion
position) when the key exists, else append. -/
def mapSet (m : Snapshot) (k : UserId) (v : RankSnapshot) : Snapshot :=
  if (snapLookup m k).isSome then
    m.map (fun p => if p.1 = k then (k, v) else p)
  else
    m ++ [(k, v)]

/-- `RankChangeEvent` interface of the source. -/
structure RankChangeEvent where
  type : String
  userId : UserId
  previousGlobalRank : Int
  currentGlobalRank : Int
  previousWeeklyRank : Int
  currentWeeklyRank : Int
  rankChange : Int
  timestamp : Int
deriving DecidableEq

/-- Achievement record built by `detectAchievements`. -/
structure Achievement where
  type : String
  title : String
  description : String
deriving DecidableEq

/-- A row of the `leaderboards` table as selected by `getCurrentSnapshot`
(fields `userId, globalRank, weeklyRank, allTimePnl, weeklyPnl`). -/
structure LeaderboardRec where
  userId : UserId
  globalRank : Int
  weeklyRank : Int
  allTimePnl : Int
  weeklyPnl : Int
deriving DecidableEq

/-- A row returned by the top-N repository queries, including the joined
`user.username`. -/
structure LeaderboardRow where
  userId : UserId
  username : String
  globalRank : Int
  weeklyRank : Int
  allTimePnl : Int
  weeklyPnl : Int
deriving DecidableEq

/-- A JSON-like value, as carried by emitted socket payloads. -/
inductive JVal where
  | jstr : String → JVal
  | jint : Int → JVal
  | jbool : Bool → JVal
  | jarr : List (List (String × JVal)) → JVal

/-- A JSON object: ordered field-name/value pairs, as built by an object
literal at an emit site. -/
abbrev JObj := List (String × JVal)

/-- One observable external action of a cycle: a repository call or a socket
emission (`io.to(room).emit(eventName, payload)`, with `ok = false` when the
transport throws for that send). -/
inductive Effect where
  | updateAllRanks
  | queryAllRows
  | queryTopGlobal (limit offset : Nat)
  | queryTopWeekly (limit offset : Nat)
  | emitToRoom (room : String) (eventName : String) (payload : JObj) (ok : Bool)

/-- `BROADCAST_INTERVAL_MS = 5 * 60 * 1000`. -/
def BROADCAST_INTERVAL_MS : Int := 5 * 60 * 1000

/-- `MIN_BROADCAST_GAP_MS = 4 * 60 * 1000`. -/
def MIN_BROADCAST_GAP_MS : Int := 4 * 60 * 1000

/-- The mutable fields of `LeaderboardBroadcasterService` that the cycle
reads and writes. -/
structure BroadcasterState where
  lastBroadcastTime : Int
  previousSnapshots : Snapshot
  isBroadcasting : Bool
deriving DecidableEq

/-- How one invocation of `broadcastRankChanges` ended. -/
inductive CycleOutcome where
  | skippedTooSoon
  | skippedInFlight
  | aborted
  | completed
deriving DecidableEq

/-- Results of every external call a cycle can make, supplied by the test
environment: repository results (with `Except.error` for a throw), the
transport binding flag (`io !== null`), per-send success of `emit`, and the
values of the `Date.now()` reads inside the cycle. -/
structure Env where
  updateAllRanksResult : Except String Unit
  findManyResult : Except String (List LeaderboardRec)
  globalRows : List LeaderboardRow
  weeklyRows : List LeaderboardRow
  getGlobalThrows : Bool
  getWeeklyThrows : Bool
  ioBound : Bool
  emitOk : String → String → Bool
  timeAtSnapshot : Int
  timeAtPublic : Int
  timeAtAchievement : Int

/-- Modelled from the spec: `RankingSource.topGlobal(limit, offset)` /
`RankingSource.topWeekly(limit, offset)` — the repository implementation is
not under `src/`; per the spec it returns the ordered ranking rows after
skipping `offset` and taking at most `limit`. -/
def repoTopQuery (rows : List LeaderboardRow) (limit offset : Nat) : List LeaderboardRow :=
  (rows.drop offset).take limit

/-- `getCurrentSnapshot`: fetch rows, then build the map row by row via
`Map.set`, stamping every entry with one `Date.now()` value. -/
def getCurrentSnapshot (env : Env) : Except String Snapshot := do
  let rows ← env.findManyResult
  return rows.foldl
    (fun snapshot lb =>
      mapSet snapshot lb.userId
        { userId := lb.userId
          globalRank := lb.globalRank
          weeklyRank := lb.weeklyRank
          allTimePnl := lb.allTimePnl
          weeklyPnl := lb.weeklyPnl
          timestamp := env.timeAtSnapshot })
    []

/-- The body of the `detectRankChanges` loop for one entry of the current
snapshot: compare against the previous snapshot and build the event when
either rank differs. -/
def rankChangeOf (previousSnapshots : Snapshot) (p : UserId × RankSnapshot) :
    Option RankChangeEvent :=
  match snapLookup previousSnapshots p.1 with
  | none => none
  | some previous =>
    if p.2.globalRank ≠ previous.globalRank ∨ p.2.weeklyRank ≠ previous.weeklyRank then
      some
        { type := "rank_changed"
          userId := p.1
          previousGlobalRank := previous.globalRank
          currentGlobalRank := p.2.globalRank
          previousWeeklyRank := previous.weeklyRank
          currentWeeklyRank := p.2.weeklyRank
          rankChange := previous.globalRank - p.2.globalRank
          timestamp := p.2.timestamp }
    else none

/-- The change list accumulated by `detectRankChanges` before the final
sort, in current-snapshot iteration order. -/
def detectRankChangesRaw (previousSnapshots currentSnapshot : Snapshot) :
    List RankChangeEvent :=
  currentSnapshot.filterMap (rankChangeOf previousSnapshots)

/-- Stable insertion step for the comparator
`(a, b) => Math.abs(b.rankChange) - Math.abs(a.rankChange)`: an element
moves past exactly those elements whose key is strictly greater, so equal
keys keep their original relative order. -/
def insertByAbs (e : RankChangeEvent) : List RankChangeEvent → List RankChangeEvent
  | [] => [e]
  | x :: xs =>
    if e.rankChange.natAbs < x.rankChange.natAbs then x :: insertByAbs e xs
    else e :: x :: xs

/-- Stable sort by descending `|rankChange|`, extensionally equal to the
ES2019 stable `Array.prototype.sort` with the code comparator. -/
def sortByAbsDesc : List RankChangeEvent → List RankChangeEvent
  | [] => []
  | x :: xs => insertByAbs x (sortByAbsDesc xs)

/-- `detectRankChanges`: build the change list over the current snapshot,
then stable-sort it by rank change magnitude. -/
def detectRankChanges (previousSnapshots currentSnapshot : Snapshot) :
    List RankChangeEvent :=
  sortByAbsDesc (detectRankChangesRaw previousSnapshots currentSnapshot)

/-- `detectAchievements`: the four independent rules, pushed in source
order (top-10, top-100, big climb, weekly leader). -/
def detectAchievements (change : RankChangeEvent) : List Achievement :=
  (if change.currentGlobalRank ≤ 10 ∧ change.previousGlobalRank > 10 then
    [{ type := "top_10_global"
       title := "Top 10 Predictor!"
       description :=
         "You\x27ve reached rank #" ++ toString change.currentGlobalRank ++
           " on the global leaderboard!" }]
  else []) ++
  (if change.currentGlobalRank ≤ 100 ∧ change.previousGlobalRank > 100 then
    [{ type := "top_100_global"
       title := "Top 100 Predictor!"
       description :=
         "You\x27ve entered the top 100 at rank #" ++
           toString change.currentGlobalRank ++ "!" }]
  else []) ++
  (if change.rankChange ≥ 50 then
    [{ type := "big_climb"
       title := "Rising Star!"
       description :=
         "You\x27ve climbed " ++ toString change.rankChange ++ " ranks! Keep it up!" }]
  else []) ++
  (if change.currentWeeklyRank = 1 ∧ change.previousWeeklyRank ≠ 1 then
    [{ type := "weekly_leader"
       title := "Weekly Champion!"
       description := "You\x27re #1 on the weekly leaderboard!" }]
  else [])

/-- The object literal emitted on a private `rank_changed` send. -/
def rankChangedPayload (change : RankChangeEvent) : JObj :=
  [("type", JVal.jstr "rank_changed"),
   ("previousGlobalRank", JVal.jint change.previousGlobalRank),
   ("currentGlobalRank", JVal.jint change.currentGlobalRank),
   ("previousWeeklyRank", JVal.jint change.previousWeeklyRank),
   ("currentWeeklyRank", JVal.jint change.currentWeeklyRank),
   ("rankChange", JVal.jint change.rankChange),
   ("improved", JVal.jbool (decide (change.rankChange > 0))),
   ("timestamp", JVal.jint change.timestamp)]

/-- `broadcastPrivateRankChanges`: one isolated send per change; a failing
send is caught, logged and the loop continues with the next user. -/
def broadcastPrivateRankChanges (env : Env) (changes : List RankChangeEvent) :
    List Effect :=
  if env.ioBound then
    changes.map fun change =>
      Effect.emitToRoom ("user:" ++ change.userId) "rank_changed"
        (rankChangedPayload change)
        (env.emitOk ("user:" ++ change.userId) "rank_changed")
  else []

/-- One entry of the public `topGlobal` array. -/
def publicGlobalEntry (lb : LeaderboardRow) : JObj :=
  [("userId", JVal.jstr lb.userId),
   ("username", JVal.jstr lb.username),
   ("rank", JVal.jint lb.globalRank),
   ("pnl", JVal.jint lb.allTimePnl)]

/-- One entry of the public `topWeekly` array. -/
def publicWeeklyEntry (lb : LeaderboardRow) : JObj :=
  [("userId", JVal.jstr lb.userId),
   ("username", JVal.jstr lb.username),
   ("rank", JVal.jint lb.weeklyRank),
   ("pnl", JVal.jint lb.weeklyPnl)]

/-- The `LeaderboardUpdateEvent` object emitted to the shared room. -/
def leaderboardUpdatedPayload (topGlobal topWeekly : List LeaderboardRow)
    (t : Int) : JObj :=
  [("type", JVal.jstr "leaderboard_updated"),
   ("topGlobal", JVal.jarr (topGlobal.map publicGlobalEntry)),
   ("topWeekly", JVal.jarr (topWeekly.map publicWeeklyEntry)),
   ("timestamp", JVal.jint t)]

/-- `broadcastPublicLeaderboardUpdate`: query top-10 global then top-10
weekly, emit one aggregated event to `leaderboard:global`; any throw inside
is caught locally (the cycle is not aborted). -/
def broadcastPublicLeaderboardUpdate (env : Env) : List Effect :=
  if env.ioBound then
    if env.getGlobalThrows then [Effect.queryTopGlobal 10 0]
    else if env.getWeeklyThrows then
      [Effect.queryTopGlobal 10 0, Effect.queryTopWeekly 10 0]
    else
      [Effect.queryTopGlobal 10 0, Effect.queryTopWeekly 10 0,
       Effect.emitToRoom "leaderboard:global" "leaderboard_updated"
         (leaderboardUpdatedPayload (repoTopQuery env.globalRows 10 0)
           (repoTopQuery env.weeklyRows 10 0) env.timeAtPublic)
         (env.emitOk "leaderboard:global" "leaderboard_updated")]
  else []

/-- The object literal emitted on a private `achievement_earned` send. -/
def achievementPayload (a : Achievement) (t : Int) : JObj :=
  [("type", JVal.jstr "achievement_earned"),
   ("achievementType", JVal.jstr a.type),
   ("title", JVal.jstr a.title),
   ("description", JVal.jstr a.description),
   ("timestamp", JVal.jint t)]

/-- The inner loop of `broadcastAchievements` for one user: a throwing
`emit` aborts the remaining sends of this user only (the `try` wraps the
whole inner loop). -/
def emitAchievementList (env : Env) (room : String) : List Achievement → List Effect
  | [] => []
  | a :: rest =>
    let ok := env.emitOk room "achievement_earned"
    Effect.emitToRoom room "achievement_earned" (achievementPayload a env.timeAtAchievement) ok ::
      (if ok then emitAchievementList env room rest else [])

/-- `broadcastAchievements`: per change, detect achievements and send each
to the private room of that change, with a per-user catch. -/
def broadcastAchievements (env : Env) (changes : List RankChangeEvent) :
    List Effect :=
  if env.ioBound then
    changes.flatMap fun change =>
      emitAchievementList env ("user:" ++ change.userId)
        (detectAchievements change)
  else []

/-- `broadcastRankChanges`: the full cycle — the minimum-gap gate, the
single-flight gate, the guarded body (recompute, snapshot, diff, private
fan-out, public fan-out, achievements, snapshot/time swap) with the outer
catch and the `finally` that clears the flag. Returns the new service
state, the trace of external effects, and how the invocation ended. -/
def broadcastRankChanges (env : Env) (now : Int) (st : BroadcasterState) :
    BroadcasterState × List Effect × CycleOutcome :=
  let timeSinceLastBroadcast := now - st.lastBroadcastTime
  if timeSinceLastBroadcast < MIN_BROADCAST_GAP_MS then
    (st, [], CycleOutcome.skippedTooSoon)
  else if st.isBroadcasting then
    (st, [], CycleOutcome.skippedInFlight)
  else
    match env.updateAllRanksResult with
    | Except.error _ =>
      ({ st with isBroadcasting := false }, [Effect.updateAllRanks], CycleOutcome.aborted)
    | Except.ok _ =>
      match getCurrentSnapshot env with
      | Except.error _ =>
        ({ st with isBroadcasting := false },
         [Effect.updateAllRanks, Effect.queryAllRows], CycleOutcome.aborted)
      | Except.ok currentSnapshot =>
        let rankChanges := detectRankChanges st.previousSnapshots currentSnapshot
        let privateEffects := broadcastPrivateRankChanges env rankChanges
        let publicEffects := broadcastPublicLeaderboardUpdate env
        let achievementEffects := broadcastAchievements env rankChanges
        ({ lastBroadcastTime := now
           previousSnapshots := currentSnapshot
           isBroadcasting := false },
         Effect.updateAllRanks :: Effect.queryAllRows ::
           (privateEffects ++ publicEffects ++ achievementEffects),
         CycleOutcome.completed)

/-! Concrete fixtures used by witnesses and counterexamples. -/

/-- A benign environment: every external call succeeds, the transport is
bound, nothing is ranked yet. -/
def env0 : Env :=
  { updateAllRanksResult := Except.ok ()
    findManyResult := Except.ok []
    globalRows := []
    weeklyRows := []
    getGlobalThrows := false
    getWeeklyThrows := false
    ioBound := true
    emitOk := fun _ _ => true
    timeAtSnapshot := 1000
    timeAtPublic := 1001
    timeAtAchievement := 1002 }

/-- Freshly constructed service state. -/
def st0 : BroadcasterState :=
  { lastBroadcastTime := 0, previousSnapshots := [], isBroadcasting := false }

/-- Service state with a cycle in flight. -/
def stFlag : BroadcasterState :=
  { lastBroadcastTime := 0, previousSnapshots := [], isBroadcasting := true }

/-- A concrete leaderboard row with a joined username. -/
def row1 : LeaderboardRow :=
  { userId := "user-1", username := "alice", globalRank := 1, weeklyRank := 2,
    allTimePnl := 500, weeklyPnl := 100 }

/-- The same row as selected by the snapshot query. -/
def rec1 : LeaderboardRec :=
  { userId := "user-1", globalRank := 1, weeklyRank := 2,
    allTimePnl := 500, weeklyPnl := 100 }

/-- Environment whose top-10 queries return one row. -/
def envTop : Env := { env0 with globalRows := [row1] }

/-- Environment where the top-global query throws while everything else,
including the snapshot query, succeeds with data. -/
def envGlobalThrow : Env :=
  { env0 with findManyResult := Except.ok [rec1], getGlobalThrows := true }

/-- Environment where the rank recompute throws. -/
def envUpdThrow : Env :=
  { env0 with updateAllRanksResult := Except.error "db unavailable" }

/-- Environment where every send to the room of user `a` throws. -/
def envFailA : Env := { env0 with emitOk := fun room _ => room != "user:a" }

/-- A snapshot entry for user `u1` with the given ranks. -/
def snapU1 (g w : Int) : RankSnapshot :=
  { userId := "u1", globalRank := g, weeklyRank := w,
    allTimePnl := 0, weeklyPnl := 0, timestamp := 42 }

/-- Previous snapshot: `u1` at global rank 12. -/
def prevA : Snapshot := [("u1", snapU1 12 3)]

/-- Current snapshot: `u1` climbed to global rank 8. -/
def curA : Snapshot := [("u1", snapU1 8 3)]

/-- Previous snapshot for the zero-delta scenario: `u1` at global 5, weekly 3. -/
def prevZ : Snapshot := [("u1", snapU1 5 3)]

/-- Current snapshot for the zero-delta scenario: global unchanged, weekly 3 to 1. -/
def curZ : Snapshot := [("u1", snapU1 5 1)]

/-- The rank-change event of the 12-to-8 spec scenario. -/
def ev12to8 : RankChangeEvent :=
  { type := "rank_changed", userId := "u1", previousGlobalRank := 12,
    currentGlobalRank := 8, previousWeeklyRank := 3, currentWeeklyRank := 3,
    rankChange := 4, timestamp := 42 }

/-- A big climb for user `a` (delivery to `a` fails under `envFailA`). -/
def changeUserA : RankChangeEvent :=
  { type := "rank_changed", userId := "a", previousGlobalRank := 100,
    currentGlobalRank := 30, previousWeeklyRank := 5, currentWeeklyRank := 5,
    rankChange := 70, timestamp := 7 }

/-- A small drop for user `b`, subsequent to `changeUserA` in the batch. -/
def changeUserB : RankChangeEvent :=
  { type := "rank_changed", userId := "b", previousGlobalRank := 20,
    currentGlobalRank := 25, previousWeeklyRank := 9, currentWeeklyRank := 9,
    rankChange := -5, timestamp := 7 }

/-! Helper lemmas about the stable sort. -/

theorem mem_insertByAbs {y e : RankChangeEvent} {l : List RankChangeEvent} :
    y ∈ insertByAbs e l ↔ y = e ∨ y ∈ l := by
  induction l with
  | nil => simp [insertByAbs]
  | cons x xs ih =>
    simp only [insertByAbs]
    split
    · simp only [List.mem_cons, ih]
      tauto
    · simp only [List.mem_cons]

theorem insertByAbs_perm (e : RankChangeEvent) (l : List RankChangeEvent) :
    List.Perm (insertByAbs e l) (e :: l) := by
  induction l with
  | nil => simp [insertByAbs]
  | cons x xs ih =>
    simp only [insertByAbs]
    split
    · exact (ih.cons x).trans (List.Perm.swap e x xs)
    · exact List.Perm.refl _

theorem sortByAbsDesc_perm (l : List RankChangeEvent) :
    List.Perm (sortByAbsDesc l) l := by
  induction l with
  | nil => exact List.Perm.refl _
  | cons x xs ih =>
    simp only [sortByAbsDesc]
    exact (insertByAbs_perm x (sortByAbsDesc xs)).trans (ih.cons x)

theorem pairwise_insertByAbs {e : RankChangeEvent} {l : List RankChangeEvent}
    (h : l.Pairwise (fun a b => b.rankChange.natAbs ≤ a.rankChange.natAbs)) :
    (insertByAbs e l).Pairwise
      (fun a b => b.rankChange.natAbs ≤ a.rankChange.natAbs) := by
  induction l with
  | nil => simp [insertByAbs]
  | cons x xs ih =>
    rcases List.pairwise_cons.mp h with ⟨hx, hxs⟩
    simp only [insertByAbs]
    split
    · rename_i hlt
      refine List.pairwise_cons.mpr ⟨?_, ih hxs⟩
      intro y hy
      rcases mem_insertByAbs.mp hy with rfl | hmem
      · exact Nat.le_of_lt hlt
      · exact hx y hmem
    · rename_i hnlt
      have hle : x.rankChange.natAbs ≤ e.rankChange.natAbs := Nat.le_of_not_lt hnlt
      refine List.pairwise_cons.mpr ⟨?_, h⟩
      intro y hy
      rcases List.mem_cons.mp hy with rfl | hmem
      · exact hle
      · exact Nat.le_trans (hx y hmem) hle

theorem sortByAbsDesc_pairwise (l : List RankChangeEvent) :
    (sortByAbsDesc l).Pairwise
      (fun a b => b.rankChange.natAbs ≤ a.rankChange.natAbs) := by
  induction l with
  | nil => simp [sortByAbsDesc]
  | cons x xs ih => exact pairwise_insertByAbs ih

theorem filter_insertByAbs (e : RankChangeEvent) (l : List RankChangeEvent) (k : Nat) :
    (insertByAbs e l).filter (fun x => x.rankChange.natAbs == k) =
      ((e :: l).filter (fun x => x.rankChange.natAbs == k)) := by
  induction l with
  | nil => rfl
  | cons x xs ih =>
    simp only [insertByAbs]
    split
    · rename_i hlt
      by_cases hek : e.rankChange.natAbs = k
      · have hxk : ¬ x.rankChange.natAbs = k := by omega
        simp [List.filter_cons, ih, hek, hxk]
      · simp [List.filter_cons, ih, hek]
    · rfl

theorem sortByAbsDesc_filter (l : List RankChangeEvent) (k : Nat) :
    (sortByAbsDesc l).filter (fun x => x.rankChange.natAbs == k) =
      l.filter (fun x => x.rankChange.natAbs == k) := by
  induction l with
  | nil => rfl
  | cons x xs ih =>
    simp only [sortByAbsDesc]
    rw [filter_insertByAbs]
    simp [List.filter_cons, ih]

/-! Helper lemmas about snapshots and the diff. -/

theorem snapLookup_of_mem_nodup {cur : Snapshot} {u : UserId} {c : RankSnapshot}
    (hnd : (cur.map Prod.fst).Nodup) (hmem : (u, c) ∈ cur) :
    snapLookup cur u = some c := by
  induction cur with
  | nil => simp at hmem
  | cons p rest ih =>
    rw [List.map_cons, List.nodup_cons] at hnd
    rcases List.mem_cons.mp hmem with heq | hmem2
    · rw [← heq]
      simp [snapLookup]
    · have hne : p.1 ≠ u := by
        intro h
        exact hnd.1 (h ▸ List.mem_map_of_mem Prod.fst hmem2)
      simp only [snapLookup, if_neg hne]
      exact ih hnd.2 hmem2

theorem mem_detectRankChanges_iff {prev cur : Snapshot} {e : RankChangeEvent} :
    e ∈ detectRankChanges prev cur ↔ ∃ p ∈ cur, rankChangeOf prev p = some e := by
  rw [detectRankChanges, (sortByAbsDesc_perm _).mem_iff]
  exact List.mem_filterMap

theorem rankChangeOf_userId {prev : Snapshot} {p : UserId × RankSnapshot}
    {e : RankChangeEvent} (h : rankChangeOf prev p = some e) :
    e.userId = p.1 ∧ snapLookup prev p.1 ≠ none := by
  unfold rankChangeOf at h
  cases hl : snapLookup prev p.1 with
  | none =>
    rw [hl] at h
    exact absurd h (by simp)
  | some previous =>
    rw [hl] at h
    dsimp only at h
    refine ⟨?_, by simp [hl]⟩
    by_cases hc : p.2.globalRank ≠ previous.globalRank ∨ p.2.weeklyRank ≠ previous.weeklyRank
    · rw [if_pos hc] at h
      injection h with h2
      rw [← h2]
    · rw [if_neg hc] at h
      exact absurd h (by simp)

theorem rankChangeOf_eq_none {prev : Snapshot} {u : UserId} {p c : RankSnapshot}
    (hlook : snapLookup prev u = some p)
    (hg : c.globalRank = p.globalRank) (hw : c.weeklyRank = p.weeklyRank) :
    rankChangeOf prev (u, c) = none := by
  unfold rankChangeOf
  rw [hlook]
  dsimp only
  rw [if_neg]
  push_neg
  exact ⟨hg, hw⟩

theorem rankChangeOf_changed {prev : Snapshot} {u : UserId} {p c : RankSnapshot}
    (hlook : snapLookup prev u = some p)
    (hchanged : c.globalRank ≠ p.globalRank ∨ c.weeklyRank ≠ p.weeklyRank) :
    rankChangeOf prev (u, c) =
      some
        { type := "rank_changed"
          userId := u
          previousGlobalRank := p.globalRank
          currentGlobalRank := c.globalRank
          previousWeeklyRank := p.weeklyRank
          currentWeeklyRank := c.weeklyRank
          rankChange := p.globalRank - c.globalRank
          timestamp := c.timestamp } := by
  unfold rankChangeOf
  rw [hlook]
  dsimp only
  rw [if_pos hchanged]

/-! Helper lemmas about the fan-out functions. -/

theorem mem_broadcastPrivateRankChanges {env : Env} {changes : List RankChangeEvent}
    {eff : Effect} (h : eff ∈ broadcastPrivateRankChanges env changes) :
    ∃ c ∈ changes,
      eff = Effect.emitToRoom ("user:" ++ c.userId) "rank_changed"
        (rankChangedPayload c)
        (env.emitOk ("user:" ++ c.userId) "rank_changed") := by
  unfold broadcastPrivateRankChanges at h
  by_cases hio : env.ioBound = true
  · rw [if_pos hio] at h
    rcases List.mem_map.mp h with ⟨c, hc, heq⟩
    exact ⟨c, hc, heq.symm⟩
  · rw [if_neg hio] at h
    simp at h

theorem emit_mem_broadcastPrivateRankChanges {env : Env}
    {changes : List RankChangeEvent} {c : RankChangeEvent}
    (hio : env.ioBound = true) (hc : c ∈ changes) :
    Effect.emitToRoom ("user:" ++ c.userId) "rank_changed" (rankChangedPayload c)
        (env.emitOk ("user:" ++ c.userId) "rank_changed") ∈
      broadcastPrivateRankChanges env changes := by
  unfold broadcastPrivateRankChanges
  rw [if_pos hio]
  exact List.mem_map_of_mem _ hc

theorem mem_emitAchievementList {env : Env} {room : String} {l : List Achievement}
    {eff : Effect} (h : eff ∈ emitAchievementList env room l) :
    ∃ a ok, eff = Effect.emitToRoom room "achievement_earned"
      (achievementPayload a env.timeAtAchievement) ok := by
  induction l with
  | nil => simp [emitAchievementList] at h
  | cons a rest ih =>
    simp only [emitAchievementList] at h
    rcases List.mem_cons.mp h with heq | h2
    · exact ⟨a, _, heq⟩
    · by_cases hok : env.emitOk room "achievement_earned" = true
      · rw [if_pos hok] at h2
        exact ih h2
      · rw [if_neg hok] at h2
        simp at h2

theorem mem_broadcastAchievements {env : Env} {changes : List RankChangeEvent}
    {eff : Effect} (h : eff ∈ broadcastAchievements env changes) :
    ∃ c ∈ changes, ∃ a ok,
      eff = Effect.emitToRoom ("user:" ++ c.userId) "achievement_earned"
        (achievementPayload a env.timeAtAchievement) ok := by
  unfold broadcastAchievements at h
  by_cases hio : env.ioBound = true
  · rw [if_pos hio] at h
    rcases List.mem_flatMap.mp h with ⟨c, hc, hmem⟩
    rcases mem_emitAchievementList hmem with ⟨a, ok, heq⟩
    exact ⟨c, hc, a, ok, heq⟩
  · rw [if_neg hio] at h
    simp at h

theorem head_mem_broadcastAchievements {env : Env} {changes : List RankChangeEvent}
    {c : RankChangeEvent} {a : Achievement} {rest : List Achievement}
    (hio : env.ioBound = true) (hc : c ∈ changes)
    (hdet : detectAchievements c = a :: rest) :
    Effect.emitToRoom ("user:" ++ c.userId) "achievement_earned"
        (achievementPayload a env.timeAtAchievement)
        (env.emitOk ("user:" ++ c.userId) "achievement_earned") ∈
      broadcastAchievements env changes := by
  unfold broadcastAchievements
  rw [if_pos hio]
  refine List.mem_flatMap.mpr ⟨c, hc, ?_⟩
  rw [hdet]
  simp only [emitAchievementList]
  exact List.mem_cons_self _ _

/-- The per-user private room address is injective in the user id. -/
theorem userRoom_inj {a b : String} (h : ("user:" ++ a : String) = "user:" ++ b) :
    a = b := by
  have hd := congrArg String.data h
  rw [String.data_append, String.data_append] at hd
  exact String.ext (List.append_cancel_left hd)

/-! Shape lemmas for the four ways an invocation of the cycle can end. -/

theorem broadcastRankChanges_tooSoon {env : Env} {now : Int} {st : BroadcasterState}
    (h : now - st.lastBroadcastTime < MIN_BROADCAST_GAP_MS) :
    broadcastRankChanges env now st = (st, [], CycleOutcome.skippedTooSoon) := by
  unfold broadcastRankChanges
  rw [if_pos h]

theorem broadcastRankChanges_inFlight {env : Env} {now : Int} {st : BroadcasterState}
    (hgap : ¬ now - st.lastBroadcastTime < MIN_BROADCAST_GAP_MS)
    (hflag : st.isBroadcasting = true) :
    broadcastRankChanges env now st = (st, [], CycleOutcome.skippedInFlight) := by
  unfold broadcastRankChanges
  rw [if_neg hgap, if_pos hflag]

theorem broadcastRankChanges_updErr {env : Env} {now : Int} {st : BroadcasterState}
    {msg : String}
    (hgap : ¬ now - st.lastBroadcastTime < MIN_BROADCAST_GAP_MS)
    (hflag : st.isBroadcasting = false)
    (hupd : env.updateAllRanksResult = Except.error msg) :
    broadcastRankChanges env now st =
      ({ st with isBroadcasting := false },
       [Effect.updateAllRanks], CycleOutcome.aborted) := by
  unfold broadcastRankChanges
  rw [if_neg hgap, if_neg (by simp [hflag]), hupd]

theorem broadcastRankChanges_snapErr {env : Env} {now : Int} {st : BroadcasterState}
    {msg : String}
    (hgap : ¬ now - st.lastBroadcastTime < MIN_BROADCAST_GAP_MS)
    (hflag : st.isBroadcasting = false)
    (hupd : env.updateAllRanksResult = Except.ok ())
    (hsnap : getCurrentSnapshot env = Except.error msg) :
    broadcastRankChanges env now st =
      ({ st with isBroadcasting := false },
       [Effect.updateAllRanks, Effect.queryAllRows], CycleOutcome.aborted) := by
  unfold broadcastRankChanges
  rw [if_neg hgap, if_neg (by simp [hflag]), hupd, hsnap]

theorem broadcastRankChanges_run {env : Env} {now : Int} {st : BroadcasterState}
    {cur : Snapshot}
    (hgap : ¬ now - st.lastBroadcastTime < MIN_BROADCAST_GAP_MS)
    (hflag : st.isBroadcasting = false)
    (hupd : env.updateAllRanksResult = Except.ok ())
    (hsnap : getCurrentSnapshot env = Except.ok cur) :
    broadcastRankChanges env now st =
      ({ lastBroadcastTime := now, previousSnapshots := cur, isBroadcasting := false },
       Effect.updateAllRanks :: Effect.queryAllRows ::
         (broadcastPrivateRankChanges env (detectRankChanges st.previousSnapshots cur) ++
          broadcastPublicLeaderboardUpdate env ++
          broadcastAchievements env (detectRankChanges st.previousSnapshots cur)),
       CycleOutcome.completed) := by
  unfold broadcastRankChanges
  rw [if_neg hgap, if_neg (by simp [hflag]), hupd, hsnap]

theorem broadcastRankChanges_completed_time {env : Env} {now : Int}
    {st : BroadcasterState}
    (h : (broadcastRankChanges env now st).2.2 = CycleOutcome.completed) :
    (broadcastRankChanges env now st).1.lastBroadcastTime = now := by
  by_cases hgap : now - st.lastBroadcastTime < MIN_BROADCAST_GAP_MS
  · rw [broadcastRankChanges_tooSoon hgap] at h
    exact absurd h (by simp)
  · by_cases hflag : st.isBroadcasting = true
    · rw [broadcastRankChanges_inFlight hgap hflag] at h
      exact absurd h (by simp)
    · have hflag2 : st.isBroadcasting = false := by
        cases hb : st.isBroadcasting
        · rfl
        · exact absurd hb hflag
      cases hupd : env.updateAllRanksResult with
      | error msg =>
        rw [broadcastRankChanges_updErr hgap hflag2 hupd] at h
        exact absurd h (by simp)
      | ok u =>
        cases u
        cases hsnap : getCurrentSnapshot env with
        | error msg =>
          rw [broadcastRankChanges_snapErr hgap hflag2 hupd hsnap] at h
          exact absurd h (by simp)
        | ok cur =>
          rw [broadcastRankChanges_run hgap hflag2 hupd hsnap]

/-! Membership characterisations of the four achievement rules. -/

theorem top10_mem_iff (change : RankChangeEvent) :
    ("top_10_global" ∈ (detectAchievements change).map Achievement.type) ↔
      (change.currentGlobalRank ≤ 10 ∧ change.previousGlobalRank > 10) := by
  by_cases h1 : change.currentGlobalRank ≤ 10 ∧ change.previousGlobalRank > 10 <;>
  by_cases h2 : change.currentGlobalRank ≤ 100 ∧ change.previousGlobalRank > 100 <;>
  by_cases h3 : change.rankChange ≥ 50 <;>
  by_cases h4 : change.currentWeeklyRank = 1 ∧ change.previousWeeklyRank ≠ 1 <;>
  simp [detectAchievements, h1, h2, h3, h4]

theorem top100_mem_iff (change : RankChangeEvent) :
    ("top_100_global" ∈ (detectAchievements change).map Achievement.type) ↔
      (change.currentGlobalRank ≤ 100 ∧ change.previousGlobalRank > 100) := by
  by_cases h1 : change.currentGlobalRank ≤ 10 ∧ change.previousGlobalRank > 10 <;>
  by_cases h2 : change.currentGlobalRank ≤ 100 ∧ change.previousGlobalRank > 100 <;>
  by_cases h3 : change.rankChange ≥ 50 <;>
  by_cases h4 : change.currentWeeklyRank = 1 ∧ change.previousWeeklyRank ≠ 1 <;>
  simp [detectAchievements, h1, h2, h3, h4]

theorem bigClimb_mem_iff (change : RankChangeEvent) :
    ("big_climb" ∈ (detectAchievements change).map Achievement.type) ↔
      change.rankChange ≥ 50 := by
  by_cases h1 : change.currentGlobalRank ≤ 10 ∧ change.previousGlobalRank > 10 <;>
  by_cases h2 : change.currentGlobalRank ≤ 100 ∧ change.previousGlobalRank > 100 <;>
  by_cases h3 : change.rankChange ≥ 50 <;>
  by_cases h4 : change.currentWeeklyRank = 1 ∧ change.previousWeeklyRank ≠ 1 <;>
  simp [detectAchievements, h1, h2, h3, h4]

theorem weeklyLeader_mem_iff (change : RankChangeEvent) :
    ("weekly_leader" ∈ (detectAchievements change).map Achievement.type) ↔
      (change.currentWeeklyRank = 1 ∧ change.previousWeeklyRank ≠ 1) := by
  by_cases h1 : change.currentGlobalRank ≤ 10 ∧ change.previousGlobalRank > 10 <;>
  by_cases h2 : change.currentGlobalRank ≤ 100 ∧ change.previousGlobalRank > 100 <;>
  by_cases h3 : change.rankChange ≥ 50 <;>
  by_cases h4 : change.currentWeeklyRank = 1 ∧ change.previousWeeklyRank ≠ 1 <;>
  simp [detectAchievements, h1, h2, h3, h4]

/-! Users without a diff event receive nothing on their private channel. -/

theorem no_event_for_new_user {prev cur : Snapshot} {u : UserId}
    (hlook : snapLookup prev u = none) :
    ∀ e ∈ detectRankChanges prev cur, e.userId ≠ u := by
  intro e he heq
  rcases mem_detectRankChanges_iff.mp he with ⟨p, _, hsome⟩
  rcases rankChangeOf_userId hsome with ⟨hid, hlk⟩
  have hpu : p.1 = u := hid.symm.trans heq
  exact hlk (by rw [hpu]; exact hlook)

theorem no_event_for_unchanged {prev cur : Snapshot} {u : UserId} {p c : RankSnapshot}
    (hnd : (cur.map Prod.fst).Nodup)
    (hlook : snapLookup prev u = some p) (hmem : (u, c) ∈ cur)
    (hg : c.globalRank = p.globalRank) (hw : c.weeklyRank = p.weeklyRank) :
    ∀ e ∈ detectRankChanges prev cur, e.userId ≠ u := by
  intro e he heq
  rcases mem_detectRankChanges_iff.mp he with ⟨q, hq, hsome⟩
  rcases rankChangeOf_userId hsome with ⟨hid, _⟩
  have hq1 : q.1 = u := hid.symm.trans heq
  have hqmem : (q.1, q.2) ∈ cur := hq
  have hlq : snapLookup cur q.1 = some q.2 := snapLookup_of_mem_nodup hnd hqmem
  have hlc : snapLookup cur u = some c := snapLookup_of_mem_nodup hnd hmem
  rw [hq1, hlc] at hlq
  have hq2 : q.2 = c := by
    injection hlq.symm
  have hqpair : q = (u, c) := by
    cases q
    simp only at hq1 hq2
    rw [hq1, hq2]
  rw [hqpair, rankChangeOf_eq_none hlook hg hw] at hsome
  exact absurd hsome (by simp)

theorem no_private_for_absent {env : Env} {changes : List RankChangeEvent} {u : UserId}
    (hno : ∀ e ∈ changes, e.userId ≠ u) :
    ∀ payload ok, Effect.emitToRoom ("user:" ++ u) "rank_changed" payload ok ∉
      broadcastPrivateRankChanges env changes := by
  intro payload ok hmem
  rcases mem_broadcastPrivateRankChanges hmem with ⟨c, hc, heq⟩
  injection heq with hroom _
  exact hno c hc (userRoom_inj hroom).symm

theorem no_achievement_for_absent {env : Env} {changes : List RankChangeEvent} {u : UserId}
    (hno : ∀ e ∈ changes, e.userId ≠ u) :
    ∀ payload ok ev, Effect.emitToRoom ("user:" ++ u) ev payload ok ∉
      broadcastAchievements env changes := by
  intro payload ok ev hmem
  rcases mem_broadcastAchievements hmem with ⟨c, hc, a, ok2, heq⟩
  injection heq with hroom _
  exact hno c hc (userRoom_inj hroom).symm

/-- Claim C2: the diff output is sorted by descending `|rankChange|`; events
with equal magnitude keep the relative order in which their users were
encountered while iterating the current snapshot (the sorted list filtered
to one magnitude equals the pre-sort iteration-order list so filtered); and
the output is identical for identical inputs. -/
theorem C2_sortContract (prev cur : Snapshot) :
    ((detectRankChanges prev cur).Pairwise
      (fun a b => b.rankChange.natAbs ≤ a.rankChange.natAbs)) ∧
    (∀ k, (detectRankChanges prev cur).filter (fun e => e.rankChange.natAbs == k) =
      (detectRankChangesRaw prev cur).filter (fun e => e.rankChange.natAbs == k)) ∧
    (∀ prev2 cur2, prev2 = prev → cur2 = cur →
      detectRankChanges prev2 cur2 = detectRankChanges prev cur) := by
  refine ⟨sortByAbsDesc_pairwise _, fun k => sortByAbsDesc_filter _ k, ?_⟩
  intro prev2 cur2 h1 h2
  rw [h1, h2]

/-- Witness for C2 at concrete snapshots. -/
theorem C2_sortContract_witness :
    (prevA = prevA ∧ curA = curA) ∧
    detectRankChanges prevA curA = detectRankChanges prevA curA :=
  ⟨⟨rfl, rfl⟩, (C2_sortContract prevA curA).2.2 prevA curA rfl rfl⟩

/-- Claim C3: the achievement detector returns exactly the notifications
whose conditions hold (`top_10_global` iff entering the top 10,
`top_100_global` iff entering the top 100, `big_climb` iff climbing at
least 50, `weekly_leader` iff newly reaching weekly rank 1); the 12-to-8
scenario yields `top_10_global`; and a user whose ranks are unchanged
across consecutive snapshots gets no rank-change event and hence no
achievement emission. -/
theorem C3_achievementRules (change : RankChangeEvent) :
    (("top_10_global" ∈ (detectAchievements change).map Achievement.type) ↔
      (change.currentGlobalRank ≤ 10 ∧ change.previousGlobalRank > 10)) ∧
    (("top_100_global" ∈ (detectAchievements change).map Achievement.type) ↔
      (change.currentGlobalRank ≤ 100 ∧ change.previousGlobalRank > 100)) ∧
    (("big_climb" ∈ (detectAchievements change).map Achievement.type) ↔
      change.rankChange ≥ 50) ∧
    (("weekly_leader" ∈ (detectAchievements change).map Achievement.type) ↔
      (change.currentWeeklyRank = 1 ∧ change.previousWeeklyRank ≠ 1)) ∧
    ("top_10_global" ∈ (detectAchievements ev12to8).map Achievement.type) ∧
    (∀ (prev cur : Snapshot) (u : UserId) (p c : RankSnapshot) (env : Env),
      (cur.map Prod.fst).Nodup → snapLookup prev u = some p → (u, c) ∈ cur →
      p.globalRank = c.globalRank → p.weeklyRank = c.weeklyRank →
      (∀ e ∈ detectRankChanges prev cur, e.userId ≠ u) ∧
      (∀ payload ok ev, Effect.emitToRoom ("user:" ++ u) ev payload ok ∉
        broadcastAchievements env (detectRankChanges prev cur))) := by
  refine ⟨top10_mem_iff change, top100_mem_iff change, bigClimb_mem_iff change,
    weeklyLeader_mem_iff change, (top10_mem_iff ev12to8).mpr (by decide), ?_⟩
  intro prev cur u p c env hnd hlook hmem hg hw
  have hno := no_event_for_unchanged hnd hlook hmem hg.symm hw.symm
  exact ⟨hno, no_achievement_for_absent hno⟩

/-- Witness for C3: an unchanged user in identical snapshots receives no
event and no achievement emission. -/
theorem C3_achievementRules_witness :
    ((prevZ.map Prod.fst).Nodup ∧ snapLookup prevZ "u1" = some (snapU1 5 3) ∧
      ("u1", snapU1 5 3) ∈ prevZ) ∧
    ((∀ e ∈ detectRankChanges prevZ prevZ, e.userId ≠ "u1") ∧
     (∀ payload ok ev, Effect.emitToRoom ("user:" ++ "u1") ev payload ok ∉
        broadcastAchievements env0 (detectRankChanges prevZ prevZ))) :=
  ⟨⟨by decide, by decide, by decide⟩,
   (C3_achievementRules ev12to8).2.2.2.2.2 prevZ prevZ "u1" (snapU1 5 3) (snapU1 5 3)
     env0 (by decide) (by decide) (by decide) rfl rfl⟩

/-- Claim C7: diffing any duplicate-free snapshot against itself yields the
empty sequence, and a user present in both snapshots with identical global
and weekly ranks produces no rank-change event. -/
theorem C7_diffIdentity :
    (∀ S : Snapshot, (S.map Prod.fst).Nodup → detectRankChanges S S = []) ∧
    (∀ (prev cur : Snapshot) (u : UserId) (p c : RankSnapshot),
      (cur.map Prod.fst).Nodup → snapLookup prev u = some p → (u, c) ∈ cur →
      p.globalRank = c.globalRank → p.weeklyRank = c.weeklyRank →
      ∀ e ∈ detectRankChanges prev cur, e.userId ≠ u) := by
  constructor
  · intro S hnd
    have hraw : detectRankChangesRaw S S = [] := by
      refine List.filterMap_eq_nil_iff.mpr ?_
      intro p hp
      have hlk : snapLookup S p.1 = some p.2 := snapLookup_of_mem_nodup hnd hp
      exact rankChangeOf_eq_none hlk rfl rfl
    rw [detectRankChanges, hraw]
    rfl
  · intro prev cur u p c hnd hlook hmem hg hw
    exact no_event_for_unchanged hnd hlook hmem hg.symm hw.symm

/-- Witness for C7 at a concrete snapshot. -/
theorem C7_diffIdentity_witness :
    ((prevZ.map Prod.fst).Nodup ∧ detectRankChanges prevZ prevZ = []) ∧
    (∀ e ∈ detectRankChanges prevZ prevZ, e.userId ≠ "u1") :=
  ⟨⟨by decide, C7_diffIdentity.1 prevZ (by decide)⟩,
   C7_diffIdentity.2 prevZ prevZ "u1" (snapU1 5 3) (snapU1 5 3)
     (by decide) (by decide) (by decide) rfl rfl⟩

/-- Claim C8: a user present in the current snapshot but absent from the
previous one produces no rank-change event, no private rank-change
emission, and no achievement emission in that cycle. -/
theorem C8_newUserExcluded (prev cur : Snapshot) (u : UserId) (c : RankSnapshot)
    (env : Env) (hmem : (u, c) ∈ cur) (hlook : snapLookup prev u = none) :
    (∀ e ∈ detectRankChanges prev cur, e.userId ≠ u) ∧
    (∀ payload ok, Effect.emitToRoom ("user:" ++ u) "rank_changed" payload ok ∉
      broadcastPrivateRankChanges env (detectRankChanges prev cur)) ∧
    (∀ payload ok ev, Effect.emitToRoom ("user:" ++ u) ev payload ok ∉
      broadcastAchievements env (detectRankChanges prev cur)) := by
  have hno : ∀ e ∈ detectRankChanges prev cur, e.userId ≠ u :=
    no_event_for_new_user hlook
  exact ⟨hno, no_private_for_absent hno, no_achievement_for_absent hno⟩

/-- Witness for C8: first run, user `u1` only in the current snapshot. -/
theorem C8_newUserExcluded_witness :
    (("u1", snapU1 8 3) ∈ curA ∧ snapLookup [] "u1" = none) ∧
    (∀ e ∈ detectRankChanges [] curA, e.userId ≠ "u1") :=
  ⟨⟨by decide, rfl⟩,
   (C8_newUserExcluded [] curA "u1" (snapU1 8 3) env0 (by decide) rfl).1⟩

/-- Claim C4: invoking the cycle entry point while the elapsed time since
the last successful cycle start is strictly below the 240000 ms minimum gap
performs no cycle step and leaves the state unchanged; hence two
invocations within one minimum gap complete at most one cycle. -/
theorem C4_minGap :
    (∀ (env : Env) (now : Int) (st : BroadcasterState),
      now - st.lastBroadcastTime < MIN_BROADCAST_GAP_MS →
      broadcastRankChanges env now st = (st, [], CycleOutcome.skippedTooSoon)) ∧
    (∀ (env1 env2 : Env) (t1 t2 : Int) (s : BroadcasterState),
      t2 - t1 < MIN_BROADCAST_GAP_MS →
      ¬((broadcastRankChanges env1 t1 s).2.2 = CycleOutcome.completed ∧
        (broadcastRankChanges env2 t2 (broadcastRankChanges env1 t1 s).1).2.2 =
          CycleOutcome.completed)) := by
  constructor
  · intro env now st h
    exact broadcastRankChanges_tooSoon h
  · rintro env1 env2 t1 t2 s hgap ⟨h1, h2⟩
    have ht : (broadcastRankChanges env1 t1 s).1.lastBroadcastTime = t1 :=
      broadcastRankChanges_completed_time h1
    rw [broadcastRankChanges_tooSoon (by rw [ht]; exact hgap)] at h2
    exact absurd h2 (by simp)

/-- Witness for C4: a call 5 ms after the epoch state is skipped, and two
calls 1 ms apart cannot both complete. -/
theorem C4_minGap_witness :
    ((5 : Int) - st0.lastBroadcastTime < MIN_BROADCAST_GAP_MS ∧
      broadcastRankChanges env0 5 st0 = (st0, [], CycleOutcome.skippedTooSoon)) ∧
    ((250001 : Int) - 250000 < MIN_BROADCAST_GAP_MS ∧
      ¬((broadcastRankChanges env0 250000 st0).2.2 = CycleOutcome.completed ∧
        (broadcastRankChanges env0 250001 (broadcastRankChanges env0 250000 st0).1).2.2 =
          CycleOutcome.completed)) :=
  ⟨⟨by decide, C4_minGap.1 env0 5 st0 (by decide)⟩,
   ⟨by decide, C4_minGap.2 env0 env0 250000 250001 st0 (by decide)⟩⟩

/-- Claim C5: while the single-flight flag is set, any invocation of the
cycle entry point leaves the state untouched, performs no external effect,
and ends as a skip (never as an executed cycle). -/
theorem C5_singleFlight (env : Env) (now : Int) (st : BroadcasterState)
    (hflag : st.isBroadcasting = true) :
    (broadcastRankChanges env now st).1 = st ∧
    (broadcastRankChanges env now st).2.1 = [] ∧
    ((broadcastRankChanges env now st).2.2 = CycleOutcome.skippedTooSoon ∨
     (broadcastRankChanges env now st).2.2 = CycleOutcome.skippedInFlight) := by
  by_cases hgap : now - st.lastBroadcastTime < MIN_BROADCAST_GAP_MS
  · rw [broadcastRankChanges_tooSoon hgap]
    exact ⟨rfl, rfl, Or.inl rfl⟩
  · rw [broadcastRankChanges_inFlight hgap hflag]
    exact ⟨rfl, rfl, Or.inr rfl⟩

/-- Witness for C5 at a concrete in-flight state. -/
theorem C5_singleFlight_witness :
    stFlag.isBroadcasting = true ∧
    ((broadcastRankChanges env0 1000000 stFlag).1 = stFlag ∧
     (broadcastRankChanges env0 1000000 stFlag).2.1 = [] ∧
     ((broadcastRankChanges env0 1000000 stFlag).2.2 = CycleOutcome.skippedTooSoon ∨
      (broadcastRankChanges env0 1000000 stFlag).2.2 = CycleOutcome.skippedInFlight)) :=
  ⟨rfl, C5_singleFlight env0 1000000 stFlag rfl⟩

/-- Counterexample to claim C6 as stated: the top-global query is a ranking
source query; here it throws while everything else succeeds, yet the cycle
completes and swaps both the previous snapshot and the last-broadcast
time, instead of aborting with the state unchanged. -/
theorem C6_counterexample :
    envGlobalThrow.getGlobalThrows = true ∧
    (broadcastRankChanges envGlobalThrow 1000000 st0).2.2 = CycleOutcome.completed ∧
    (broadcastRankChanges envGlobalThrow 1000000 st0).1.previousSnapshots ≠
      st0.previousSnapshots ∧
    (broadcastRankChanges envGlobalThrow 1000000 st0).1.lastBroadcastTime ≠
      st0.lastBroadcastTime := by
  refine ⟨rfl, ?_, ?_, ?_⟩ <;> decide

/-- The single-flight flag is clear after any invocation that starts with
it clear, whatever the outcome. -/
theorem broadcastRankChanges_clears_flag (env : Env) (now : Int)
    (st : BroadcasterState) (hflag : st.isBroadcasting = false) :
    (broadcastRankChanges env now st).1.isBroadcasting = false := by
  by_cases hgap : now - st.lastBroadcastTime < MIN_BROADCAST_GAP_MS
  · rw [broadcastRankChanges_tooSoon hgap]
    exact hflag
  · cases hupd : env.updateAllRanksResult with
    | error msg => rw [broadcastRankChanges_updErr hgap hflag hupd]
    | ok u =>
      cases u
      cases hsnap : getCurrentSnapshot env with
      | error msg => rw [broadcastRankChanges_snapErr hgap hflag hupd hsnap]
      | ok cur => rw [broadcastRankChanges_run hgap hflag hupd hsnap]

/-- Claim C6 (amended): if the rank recompute (`updateAllRanks`) or the
snapshot listing query (`findMany`) throws, the cycle aborts without
crashing — the previous snapshot and the last-broadcast time stay
unchanged and the single-flight flag ends clear; and every invocation that
starts with the flag clear ends with it clear, whatever the outcome. -/
theorem C6_sourceFailure :
    (∀ (env : Env) (now : Int) (st : BroadcasterState),
      ¬ now - st.lastBroadcastTime < MIN_BROADCAST_GAP_MS →
      st.isBroadcasting = false →
      ((∃ msg, env.updateAllRanksResult = Except.error msg) ∨
       (env.updateAllRanksResult = Except.ok () ∧
        ∃ msg, env.findManyResult = Except.error msg)) →
      (broadcastRankChanges env now st).1.previousSnapshots = st.previousSnapshots ∧
      (broadcastRankChanges env now st).1.lastBroadcastTime = st.lastBroadcastTime ∧
      (broadcastRankChanges env now st).2.2 = CycleOutcome.aborted ∧
      (broadcastRankChanges env now st).1.isBroadcasting = false) ∧
    (∀ (env : Env) (now : Int) (st : BroadcasterState),
      st.isBroadcasting = false →
      (broadcastRankChanges env now st).1.isBroadcasting = false) := by
  constructor
  · intro env now st hgap hflag hfail
    rcases hfail with ⟨msg, hupd⟩ | ⟨hupd, msg, hfind⟩
    · rw [broadcastRankChanges_updErr hgap hflag hupd]
      exact ⟨rfl, rfl, rfl, rfl⟩
    · have hsnap : getCurrentSnapshot env = Except.error msg := by
        simp [getCurrentSnapshot, hfind]
      rw [broadcastRankChanges_snapErr hgap hflag hupd hsnap]
      exact ⟨rfl, rfl, rfl, rfl⟩
  · exact broadcastRankChanges_clears_flag

/-- Witness for C6 (amended) at a concrete environment whose recompute
throws. -/
theorem C6_sourceFailure_witness :
    (¬ (1000000 : Int) - st0.lastBroadcastTime < MIN_BROADCAST_GAP_MS ∧
     st0.isBroadcasting = false ∧
     envUpdThrow.updateAllRanksResult = Except.error "db unavailable") ∧
    ((broadcastRankChanges envUpdThrow 1000000 st0).1.previousSnapshots =
        st0.previousSnapshots ∧
     (broadcastRankChanges envUpdThrow 1000000 st0).1.lastBroadcastTime =
        st0.lastBroadcastTime ∧
     (broadcastRankChanges envUpdThrow 1000000 st0).2.2 = CycleOutcome.aborted ∧
     (broadcastRankChanges envUpdThrow 1000000 st0).1.isBroadcasting = false) :=
  ⟨⟨by decide, rfl, rfl⟩,
   C6_sourceFailure.1 envUpdThrow 1000000 st0 (by decide) rfl
     (Or.inl ⟨"db unavailable", rfl⟩)⟩

/-- Claim C9: during private fan-out every change in the batch gets its own
delivery attempt whatever the per-user delivery outcomes are (so one
user failing does not prevent attempts for subsequent users); likewise the
first achievement of any user in the batch is always attempted; and
delivery failures never keep a cycle from completing. -/
theorem C9_isolation (env : Env) (changes : List RankChangeEvent)
    (c : RankChangeEvent) (hio : env.ioBound = true) (hc : c ∈ changes) :
    (Effect.emitToRoom ("user:" ++ c.userId) "rank_changed" (rankChangedPayload c)
        (env.emitOk ("user:" ++ c.userId) "rank_changed") ∈
      broadcastPrivateRankChanges env changes) ∧
    (∀ (a : Achievement) (rest : List Achievement),
      detectAchievements c = a :: rest →
      Effect.emitToRoom ("user:" ++ c.userId) "achievement_earned"
          (achievementPayload a env.timeAtAchievement)
          (env.emitOk ("user:" ++ c.userId) "achievement_earned") ∈
        broadcastAchievements env changes) ∧
    (∀ (now : Int) (st : BroadcasterState) (cur : Snapshot),
      ¬ now - st.lastBroadcastTime < MIN_BROADCAST_GAP_MS →
      st.isBroadcasting = false →
      env.updateAllRanksResult = Except.ok () →
      getCurrentSnapshot env = Except.ok cur →
      (broadcastRankChanges env now st).2.2 = CycleOutcome.completed) := by
  refine ⟨emit_mem_broadcastPrivateRankChanges hio hc, ?_, ?_⟩
  · intro a rest hdet
    exact head_mem_broadcastAchievements hio hc hdet
  · intro now st cur hgap hflag hupd hsnap
    rw [broadcastRankChanges_run hgap hflag hupd hsnap]

/-- Witness for C9: in a batch where every send to user `a` throws, the
subsequent user `b` still gets a delivery attempt. -/
theorem C9_isolation_witness :
    (envFailA.ioBound = true ∧ changeUserB ∈ [changeUserA, changeUserB] ∧
     envFailA.emitOk ("user:" ++ changeUserA.userId) "rank_changed" = false) ∧
    (Effect.emitToRoom ("user:" ++ changeUserB.userId) "rank_changed"
        (rankChangedPayload changeUserB)
        (envFailA.emitOk ("user:" ++ changeUserB.userId) "rank_changed") ∈
      broadcastPrivateRankChanges envFailA [changeUserA, changeUserB]) :=
  ⟨⟨rfl, by decide, by decide⟩,
   (C9_isolation envFailA [changeUserA, changeUserB] changeUserB rfl (by decide)).1⟩

/-- Claim C10: a user present in both snapshots whose weekly rank changed
while the global rank did not yields a `rank_changed` event with
`rankChange = 0`, and the private payload emitted for it carries
`improved = false`. -/
theorem C10_zeroDelta (prev cur : Snapshot) (u : UserId) (p c : RankSnapshot)
    (env : Env) (hlook : snapLookup prev u = some p) (hmem : (u, c) ∈ cur)
    (hg : c.globalRank = p.globalRank) (hw : c.weeklyRank ≠ p.weeklyRank)
    (hio : env.ioBound = true) :
    ∃ e ∈ detectRankChanges prev cur, e.userId = u ∧ e.rankChange = 0 ∧
      ("improved", JVal.jbool false) ∈ rankChangedPayload e ∧
      Effect.emitToRoom ("user:" ++ u) "rank_changed" (rankChangedPayload e)
          (env.emitOk ("user:" ++ u) "rank_changed") ∈
        broadcastPrivateRankChanges env (detectRankChanges prev cur) := by
  have hsome := rankChangeOf_changed hlook (Or.inr hw)
  have hev := mem_detectRankChanges_iff.mpr ⟨(u, c), hmem, hsome⟩
  have h0 : p.globalRank - c.globalRank = 0 := by omega
  refine ⟨_, hev, rfl, h0, ?_, ?_⟩
  · simp [rankChangedPayload, h0]
  · exact emit_mem_broadcastPrivateRankChanges hio hev

/-- Witness for C10: `u1` keeps global rank 5 while the weekly rank moves
from 3 to 1. -/
theorem C10_zeroDelta_witness :
    (snapLookup prevZ "u1" = some (snapU1 5 3) ∧ ("u1", snapU1 5 1) ∈ curZ ∧
     (snapU1 5 1).globalRank = (snapU1 5 3).globalRank ∧
     (snapU1 5 1).weeklyRank ≠ (snapU1 5 3).weeklyRank) ∧
    (∃ e ∈ detectRankChanges prevZ curZ, e.userId = "u1" ∧ e.rankChange = 0 ∧
      ("improved", JVal.jbool false) ∈ rankChangedPayload e ∧
      Effect.emitToRoom ("user:" ++ "u1") "rank_changed" (rankChangedPayload e)
          (env0.emitOk ("user:" ++ "u1") "rank_changed") ∈
        broadcastPrivateRankChanges env0 (detectRankChanges prevZ curZ)) :=
  ⟨⟨by decide, by decide, by decide, by decide⟩,
   C10_zeroDelta prevZ curZ "u1" (snapU1 5 3) (snapU1 5 1) env0
     (by decide) (by decide) (by decide) (by decide) rfl⟩

/-- Counterexample to claim C1 as stated: each entry of the public payload
built by the source carries a `userId` field, which is not among display
name, rank and PnL; the emission below shows such an entry reaching the
shared channel. -/
theorem C1_counterexample :
    (publicGlobalEntry row1).map Prod.fst = ["userId", "username", "rank", "pnl"] ∧
    "userId" ∉ (["username", "rank", "pnl"] : List String) ∧
    Effect.emitToRoom "leaderboard:global" "leaderboard_updated"
        (leaderboardUpdatedPayload [row1] [] envTop.timeAtPublic) true ∈
      broadcastPublicLeaderboardUpdate envTop := by
  refine ⟨rfl, by decide, ?_⟩
  have h : broadcastPublicLeaderboardUpdate envTop =
      [Effect.queryTopGlobal 10 0, Effect.queryTopWeekly 10 0,
       Effect.emitToRoom "leaderboard:global" "leaderboard_updated"
         (leaderboardUpdatedPayload [row1] [] envTop.timeAtPublic) true] := rfl
  rw [h]
  exact List.mem_cons_of_mem _ (List.mem_cons_of_mem _ (List.mem_cons_self _ _))

/-- Any `leaderboard_updated` emission of the public fan-out step carries
exactly the event object built from the two top-10 query results. -/
theorem public_emit_inv {env : Env} {payload : JObj} {ok : Bool}
    (hmem : Effect.emitToRoom "leaderboard:global" "leaderboard_updated" payload ok ∈
      broadcastPublicLeaderboardUpdate env) :
    payload = leaderboardUpdatedPayload (repoTopQuery env.globalRows 10 0)
      (repoTopQuery env.weeklyRows 10 0) env.timeAtPublic := by
  unfold broadcastPublicLeaderboardUpdate at hmem
  by_cases hio : env.ioBound = true
  · rw [if_pos hio] at hmem
    by_cases hg : env.getGlobalThrows = true
    · rw [if_pos hg] at hmem
      simp at hmem
    · rw [if_neg hg] at hmem
      by_cases hw : env.getWeeklyThrows = true
      · rw [if_pos hw] at hmem
        simp at hmem
      · rw [if_neg hw] at hmem
        rcases List.mem_cons.mp hmem with h | h
        · exact absurd h (by simp)
        · rcases List.mem_cons.mp h with h2 | h2
          · exact absurd h2 (by simp)
          · rcases List.mem_cons.mp h2 with h3 | h3
            · simp only [Effect.emitToRoom.injEq] at h3
              exact h3.2.2.1
            · simp at h3
  · rw [if_neg hio] at hmem
    simp at hmem

/-- Claim C1 (amended): every public leaderboard update a cycle emits goes
to the shared room, contains at most 10 entries per ranking type, each
entry carrying exactly the fields `userId`, `username` (display name),
`rank` and `pnl`, and neither the entries nor the event itself carry any
raw rank-change delta field. -/
theorem C1_publicPayload (env : Env) (now : Int) (st : BroadcasterState)
    (payload : JObj) (ok : Bool)
    (hmem : Effect.emitToRoom "leaderboard:global" "leaderboard_updated" payload ok ∈
      (broadcastRankChanges env now st).2.1) :
    payload = leaderboardUpdatedPayload (repoTopQuery env.globalRows 10 0)
      (repoTopQuery env.weeklyRows 10 0) env.timeAtPublic ∧
    (repoTopQuery env.globalRows 10 0).length ≤ 10 ∧
    (repoTopQuery env.weeklyRows 10 0).length ≤ 10 ∧
    (∀ entry ∈ (repoTopQuery env.globalRows 10 0).map publicGlobalEntry ++
        (repoTopQuery env.weeklyRows 10 0).map publicWeeklyEntry,
      entry.map Prod.fst = ["userId", "username", "rank", "pnl"] ∧
      "rankChange" ∉ entry.map Prod.fst) ∧
    payload.map Prod.fst = ["type", "topGlobal", "topWeekly", "timestamp"] ∧
    "rankChange" ∉ payload.map Prod.fst := by
  have hpay : payload = leaderboardUpdatedPayload (repoTopQuery env.globalRows 10 0)
      (repoTopQuery env.weeklyRows 10 0) env.timeAtPublic := by
    by_cases hgap : now - st.lastBroadcastTime < MIN_BROADCAST_GAP_MS
    · rw [broadcastRankChanges_tooSoon hgap] at hmem
      simp at hmem
    · by_cases hflag : st.isBroadcasting = true
      · rw [broadcastRankChanges_inFlight hgap hflag] at hmem
        simp at hmem
      · have hflag2 : st.isBroadcasting = false := by
          cases hb : st.isBroadcasting
          · rfl
          · exact absurd hb hflag
        cases hupd : env.updateAllRanksResult with
        | error msg =>
          rw [broadcastRankChanges_updErr hgap hflag2 hupd] at hmem
          simp at hmem
        | ok u =>
          cases u
          cases hsnap : getCurrentSnapshot env with
          | error msg =>
            rw [broadcastRankChanges_snapErr hgap hflag2 hupd hsnap] at hmem
            simp at hmem
          | ok cur =>
            rw [broadcastRankChanges_run hgap hflag2 hupd hsnap] at hmem
            rcases List.mem_cons.mp hmem with h | h
            · exact absurd h (by simp)
            · rcases List.mem_cons.mp h with h2 | h2
              · exact absurd h2 (by simp)
              · rcases List.mem_append.mp h2 with h3 | h3
                · rcases List.mem_append.mp h3 with h4 | h4
                  · rcases mem_broadcastPrivateRankChanges h4 with ⟨c, _, heq⟩
                    injection heq with _ hev _ _
                    exact absurd hev (by decide)
                  · exact public_emit_inv h4
                · rcases mem_broadcastAchievements h3 with ⟨c, _, a, ok2, heq⟩
                  injection heq with _ hev _ _
                  exact absurd hev (by decide)
  refine ⟨hpay, ?_, ?_, ?_, ?_, ?_⟩
  · exact List.length_take_le 10 _
  · exact List.length_take_le 10 _
  · intro entry hent
    rcases List.mem_append.mp hent with h | h
    · rcases List.mem_map.mp h with ⟨r, _, heq⟩
      rw [← heq]
      refine ⟨rfl, ?_⟩
      show "rankChange" ∉ (["userId", "username", "rank", "pnl"] : List String)
      decide
    · rcases List.mem_map.mp h with ⟨r, _, heq⟩
      rw [← heq]
      refine ⟨rfl, ?_⟩
      show "rankChange" ∉ (["userId", "username", "rank", "pnl"] : List String)
      decide
  · rw [hpay]
    rfl
  · rw [hpay]
    show "rankChange" ∉ (["type", "topGlobal", "topWeekly", "timestamp"] : List String)
    decide

/-- Witness for C1 (amended): a cycle over one ranked row emits a public
update whose single entry carries the four fields and no delta field. -/
theorem C1_publicPayload_witness :
    (Effect.emitToRoom "leaderboard:global" "leaderboard_updated"
        (leaderboardUpdatedPayload (repoTopQuery envTop.globalRows 10 0)
          (repoTopQuery envTop.weeklyRows 10 0) envTop.timeAtPublic) true ∈
      (broadcastRankChanges envTop 1000000 st0).2.1) ∧
    ((repoTopQuery envTop.globalRows 10 0).length ≤ 10 ∧
     "rankChange" ∉ (leaderboardUpdatedPayload (repoTopQuery envTop.globalRows 10 0)
        (repoTopQuery envTop.weeklyRows 10 0) envTop.timeAtPublic).map Prod.fst) := by
  have hmem : Effect.emitToRoom "leaderboard:global" "leaderboard_updated"
      (leaderboardUpdatedPayload (repoTopQuery envTop.globalRows 10 0)
        (repoTopQuery envTop.weeklyRows 10 0) envTop.timeAtPublic) true ∈
      (broadcastRankChanges envTop 1000000 st0).2.1 := by
    have htr : (broadcastRankChanges envTop 1000000 st0).2.1 =
        [Effect.updateAllRanks, Effect.queryAllRows,
         Effect.queryTopGlobal 10 0, Effect.queryTopWeekly 10 0,
         Effect.emitToRoom "leaderboard:global" "leaderboard_updated"
           (leaderboardUpdatedPayload (repoTopQuery envTop.globalRows 10 0)
             (repoTopQuery envTop.weeklyRows 10 0) envTop.timeAtPublic) true] := rfl
    rw [htr]
    exact List.mem_cons_of_mem _ (List.mem_cons_of_mem _ (List.mem_cons_of_mem _
      (List.mem_cons_of_mem _ (List.mem_cons_self _ _))))
  have hc := C1_publicPayload envTop 1000000 st0 _ true hmem
  exact ⟨hmem, hc.2.1, hc.2.2.2.2.2⟩

end LB
